import Mathlib

/-!
Shallow embedding of the xf_heap facade (repository ccb5/xf_heap).

The repository ships the public header `src/xf_heap.h`, which fixes the
data model (`xf_heap_region_t`, `xf_alloc_func_t`) and the public
surface (`xf_malloc`, `xf_free`, `xf_heap_redirect`, `xf_heap_init`,
`xf_heap_uninit`, `xf_heap_get_free_size`,
`xf_heap_get_min_ever_free_size`).  The implementation translation unit
(`xf_heap.c`, together with `xf_heap_internal_config.h` defining
`xf_heap_err_t`) is not among the sources, so the operation bodies
below are modelled from the specification document; each such
definition says so in its doc comment.

Machine conventions: C addresses and unsigned integers are modelled as
`Nat`, with `0` playing the role of the null pointer.  The only place
where machine-word overflow matters for the specified behaviour is the
region-range wrap check, which is made explicit against `2 ^ 32`
(`size_in_bytes` is an `unsigned int` of at least 32 bits and
addresses are machine pointers).  The allocator behind the operation
vector is kept abstract: a state type `σ` plus the four operations of
`xf_alloc_func_t`.
-/

/-- Region descriptor, from `xf_heap_region_t` in `src/xf_heap.h`
(lines 72-75): a start address (`unsigned char *stat_address`, the
field name is taken verbatim from the header) and a size
(`unsigned int size_in_bytes`).  The sentinel record is `{null, 0}`. -/
structure xf_heap_region_t where
  stat_address : Nat
  size_in_bytes : Nat
deriving DecidableEq

/-- Nullable operation vector, from `xf_alloc_func_t` in
`src/xf_heap.h` (lines 80-85): four function handles, each possibly
null, over an abstract allocator-state type `σ`.  `malloc` returns the
new allocator state and an address (`0` is null); `init` returns the
new allocator state and the usable byte total; `get_block_size`
reports the charged size of a block. -/
structure xf_alloc_func_t (σ : Type) where
  malloc : Option (σ → Nat → σ × Nat)
  free : Option (σ → Nat → σ)
  init : Option (σ → List xf_heap_region_t → σ × Nat)
  get_block_size : Option (σ → Nat → Nat)

/-- Modelled from the spec: `xf_heap.c` is absent from the sources.
The Operation Vector Registry keeps the active vector with all four
operations present (none null), so the installed vector is stored with
total fields; `xf_heap_redirect` validates an `xf_alloc_func_t` before
installing it in this form. -/
structure xf_alloc_ops (σ : Type) where
  malloc : σ → Nat → σ × Nat
  free : σ → Nat → σ
  init : σ → List xf_heap_region_t → σ × Nat
  get_block_size : σ → Nat → Nat

/-- Modelled from the spec: the process-wide heap state singleton of
`xf_heap.c` — the active operation vector, the abstract state of the
underlying allocator, the `initialized` flag, and the two accounting
counters `free_bytes` and `min_ever_free_bytes` (low-water mark). -/
structure xf_heap_state (σ : Type) where
  funcs : xf_alloc_ops σ
  alloc_st : σ
  initialized : Bool
  free_bytes : Nat
  min_ever_free_bytes : Nat

/-- Modelled from the spec: the error taxonomy of §7, returned by the
boot-time operations.  The header only shows the return types
(`xf_heap_err_t` / `int`); the distinct kinds are the spec's. -/
inductive xf_heap_err_t where
  | ok
  | ordering_violation
  | incomplete_vector
  | already_initialized
  | not_initialized
  | malformed_region_array
  | region_overlap
  | no_regions
  | allocator_rejected
deriving DecidableEq

/-- The size of the machine address space: sizes are `unsigned int`
(at least 32 bits), so range arithmetic wraps at `2 ^ 32`. -/
def ADDR_SPACE : Nat := 2 ^ 32

/-- Implementation-defined maximum length of the sentinel scan over a
region array; the spec recommends 16. -/
def XF_HEAP_REGIONS_MAX : Nat := 16

/-- The terminating record of a region array: null start AND zero
size. -/
def isSentinel (r : xf_heap_region_t) : Bool :=
  r.stat_address == 0 && r.size_in_bytes == 0

/-- Modelled from the spec (§4.2): a usable region has a non-null
start address, a positive size, and a range that does not wrap the
address space. -/
def regionValid (r : xf_heap_region_t) : Bool :=
  r.stat_address != 0 && r.size_in_bytes != 0 &&
    decide (r.stat_address + r.size_in_bytes < ADDR_SPACE)

/-- Two regions are disjoint when one ends at or before the start of
the other (half-open ranges `[start, start + size)`). -/
def regionsDisjoint (a b : xf_heap_region_t) : Bool :=
  decide (a.stat_address + a.size_in_bytes ≤ b.stat_address) ||
    decide (b.stat_address + b.size_in_bytes ≤ a.stat_address)

/-- True when some two distinct entries of the list intersect. -/
def anyOverlap : List xf_heap_region_t → Bool
  | [] => false
  | r :: rs => rs.any (fun r2 => !(regionsDisjoint r r2)) || anyOverlap rs

/-- Modelled from the spec (§4.2): scan a caller region array for the
zero sentinel within `fuel` entries, returning the usable prefix, or
`none` when the sentinel is not reached within the bound (a malformed
array).  A list that ends without a sentinel corresponds to a C array
without a terminator and is likewise malformed. -/
def scanRegions : Nat → List xf_heap_region_t → Option (List xf_heap_region_t)
  | _, [] => none
  | 0, _ => none
  | fuel + 1, r :: rs =>
    if isSentinel r then some []
    else (scanRegions fuel rs).map (fun l => r :: l)

variable {σ : Type}

/-- Modelled from the spec: the `block_size_of` surface operation —
route the address through the active vector's `get_block_size` to
obtain the allocator-reported charged size. -/
def xf_block_size_of (s : xf_heap_state σ) (pv : Nat) : Nat :=
  s.funcs.get_block_size s.alloc_st pv

/-- Modelled from the spec (`xf_malloc`, declared at `src/xf_heap.h`
line 107; body in the absent `xf_heap.c`): dispatch to the active
vector's `malloc`; on a null result return null; on success query the
active `get_block_size` on the returned address for the charged size,
subtract it from `free_bytes`, and lower the low-water mark to
`min min_ever_free_bytes free_bytes`. -/
def xf_malloc (s : xf_heap_state σ) (size : Nat) : xf_heap_state σ × Nat :=
  if (s.funcs.malloc s.alloc_st size).2 = 0 then
    ({ s with alloc_st := (s.funcs.malloc s.alloc_st size).1 }, 0)
  else
    ({ s with alloc_st := (s.funcs.malloc s.alloc_st size).1,
              free_bytes := s.free_bytes -
                s.funcs.get_block_size (s.funcs.malloc s.alloc_st size).1
                  (s.funcs.malloc s.alloc_st size).2,
              min_ever_free_bytes := min s.min_ever_free_bytes
                (s.free_bytes -
                  s.funcs.get_block_size (s.funcs.malloc s.alloc_st size).1
                    (s.funcs.malloc s.alloc_st size).2) },
     (s.funcs.malloc s.alloc_st size).2)

/-- Modelled from the spec (`xf_free`, declared at `src/xf_heap.h`
line 116; body in the absent `xf_heap.c`): a null pointer is a no-op;
otherwise query the charged size via the active `get_block_size`
BEFORE invoking the vector's `free`, then add it back to
`free_bytes`.  The low-water mark is not touched. -/
def xf_free (s : xf_heap_state σ) (pv : Nat) : xf_heap_state σ :=
  if pv = 0 then s
  else
    { s with alloc_st := s.funcs.free s.alloc_st pv,
             free_bytes := s.free_bytes + s.funcs.get_block_size s.alloc_st pv }

/-- Modelled from the spec (`xf_heap_redirect`, declared at
`src/xf_heap.h` line 138; body in the absent `xf_heap.c`): reject with
`ordering_violation` when the heap is already initialized, reject with
`incomplete_vector` when any of the four handles is null, and
otherwise install the vector; on failure the state (in particular the
active vector) is returned unchanged. -/
def xf_heap_redirect (s : xf_heap_state σ) (func : xf_alloc_func_t σ) :
    xf_heap_err_t × xf_heap_state σ :=
  if s.initialized then (.ordering_violation, s)
  else
    match func.malloc, func.free, func.init, func.get_block_size with
    | some m, some f, some i, some g => (.ok, { s with funcs := ⟨m, f, i, g⟩ })
    | _, _, _, _ => (.incomplete_vector, s)

/-- Modelled from the spec (`xf_heap_init`, declared at
`src/xf_heap.h` line 152; body in the absent `xf_heap.c`): reject a
second initialization with `already_initialized`; scan the region
array for the sentinel (`malformed_region_array` when it is not
reached); reject an empty usable prefix with `no_regions`, an entry
with a null start, zero size or wrapping range with
`malformed_region_array`, and intersecting entries with
`region_overlap`; otherwise forward the regions in order to the active
vector's `init`, whose zero return signals `allocator_rejected`, and
on success set `free_bytes` to the reported usable total,
`min_ever_free_bytes := free_bytes`, and `initialized := true`. -/
def xf_heap_init (s : xf_heap_state σ) (regions : List xf_heap_region_t) :
    xf_heap_err_t × xf_heap_state σ :=
  if s.initialized then (.already_initialized, s)
  else
    match scanRegions XF_HEAP_REGIONS_MAX regions with
    | none => (.malformed_region_array, s)
    | some rs =>
      if rs.isEmpty then (.no_regions, s)
      else if !rs.all regionValid then (.malformed_region_array, s)
      else if anyOverlap rs then (.region_overlap, s)
      else if (s.funcs.init s.alloc_st rs).2 = 0 then
        (.allocator_rejected, { s with alloc_st := (s.funcs.init s.alloc_st rs).1 })
      else
        (.ok, { s with alloc_st := (s.funcs.init s.alloc_st rs).1,
                       initialized := true,
                       free_bytes := (s.funcs.init s.alloc_st rs).2,
                       min_ever_free_bytes := (s.funcs.init s.alloc_st rs).2 })

/-- Modelled from the spec (`xf_heap_uninit`, declared at
`src/xf_heap.h` line 161; body in the absent `xf_heap.c`): reject with
`not_initialized` when the heap is not initialized; otherwise clear
the flag and discard the accounting counters. -/
def xf_heap_uninit (s : xf_heap_state σ) : xf_heap_err_t × xf_heap_state σ :=
  if s.initialized then
    (.ok, { s with initialized := false, free_bytes := 0,
                   min_ever_free_bytes := 0 })
  else (.not_initialized, s)

/-- Modelled from the spec (`xf_heap_get_free_size`, declared at
`src/xf_heap.h` line 178): return `free_bytes` while initialized and
0 otherwise. -/
def xf_heap_get_free_size (s : xf_heap_state σ) : Nat :=
  if s.initialized then s.free_bytes else 0

/-- Modelled from the spec (`xf_heap_get_min_ever_free_size`, declared
at `src/xf_heap.h` line 185): return `min_ever_free_bytes` while
initialized and 0 otherwise. -/
def xf_heap_get_min_ever_free_size (s : xf_heap_state σ) : Nat :=
  if s.initialized then s.min_ever_free_bytes else 0

/-- One facade operation of a steady-state trace: the operations that
may occur between `init` and `uninit` (the queries do not change the
state). -/
inductive HeapOp (σ : Type) where
  | malloc (size : Nat)
  | free (pv : Nat)
  | redirect (func : xf_alloc_func_t σ)
  | getFree
  | getMinEver

/-- Effect of one facade operation on the heap state. -/
def stepOp (s : xf_heap_state σ) : HeapOp σ → xf_heap_state σ
  | .malloc size => (xf_malloc s size).1
  | .free pv => xf_free s pv
  | .redirect func => (xf_heap_redirect s func).2
  | .getFree => s
  | .getMinEver => s

/-- Run a sequence of facade operations from a state. -/
def runOps (s : xf_heap_state σ) : List (HeapOp σ) → xf_heap_state σ
  | [] => s
  | o :: os => runOps (stepOp s o) os

/-- A world pairing the heap state with the caller-owned region array
that `xf_heap_init` receives through its `const xf_heap_region_t
*const` parameter. -/
structure xf_heap_world (σ : Type) where
  heap : xf_heap_state σ
  caller_regions : List xf_heap_region_t

/-- Modelled from the spec: `xf_heap.c` is absent; per the header
prototype (`const xf_heap_region_t *const regions`) and the spec
("read once during `init`", Region Intake is a "stateless
protocol"), `xf_heap_init` only reads the caller's array.  The world
step runs `xf_heap_init` on the heap component against the caller's
array and carries the array through unmodified. -/
def xf_heap_init_world (w : xf_heap_world σ) :
    xf_heap_err_t × xf_heap_world σ :=
  ((xf_heap_init w.heap w.caller_regions).1,
   { heap := (xf_heap_init w.heap w.caller_regions).2,
     caller_regions := w.caller_regions })

/-- A concrete allocator used for witnesses: the state is the number
of bytes handed out so far over a 4096-byte arena; every block is
charged 16 bytes regardless of the requested size, and addresses start
at 1000. -/
def demoOps : xf_alloc_ops Nat where
  malloc := fun st size =>
    if size == 0 || decide (4096 < st + 16) then (st, 0)
    else (st + 16, 1000 + st)
  free := fun st _ => st - 16
  init := fun _ rs => (0, rs.foldl (fun a r => a + r.size_in_bytes) 0)
  get_block_size := fun _ _ => 16

/-- A complete redirect request holding the demo operations. -/
def demoVec : xf_alloc_func_t Nat :=
  ⟨some demoOps.malloc, some demoOps.free, some demoOps.init,
    some demoOps.get_block_size⟩

/-- A redirect request with a null `malloc` handle. -/
def incompleteVec : xf_alloc_func_t Nat :=
  ⟨none, some demoOps.free, some demoOps.init, some demoOps.get_block_size⟩

/-- An uninitialized heap state carrying the demo operations. -/
def demoUninit : xf_heap_state Nat :=
  ⟨demoOps, 0, false, 0, 0⟩

/-- A caller region array: two usable regions then the sentinel. -/
def demoRegions : List xf_heap_region_t :=
  [⟨4096, 1024⟩, ⟨8192, 1024⟩, ⟨0, 0⟩]

/-- The heap state after a successful `xf_heap_init demoUninit
demoRegions`: 2048 usable bytes. -/
def demoPost : xf_heap_state Nat :=
  ⟨demoOps, 0, true, 2048, 2048⟩

/-- An initialized heap state over a 4096-byte total, used by the
allocation witnesses. -/
def demoState : xf_heap_state Nat :=
  ⟨demoOps, 0, true, 4096, 4096⟩

/-- C9: releasing the null pointer is a no-op on the whole facade
state: the counters, the flag, the operation vector and the allocator
state are all unchanged. -/
theorem xf_free_null_noop (s : xf_heap_state σ) : xf_free s 0 = s := rfl

/-- C1: a successful `xf_malloc` returning a non-null address charges
exactly the size reported by the active `block_size_of` on that
address: `free_bytes` decreases by it, and the low-water mark becomes
the minimum of its old value and the new `free_bytes`. -/
theorem xf_malloc_accounting (s : xf_heap_state σ) (size : Nat)
    (s' : xf_heap_state σ) (p : Nat)
    (h : xf_malloc s size = (s', p)) (hp : p ≠ 0) :
    s'.free_bytes = s.free_bytes - xf_block_size_of s' p ∧
    s'.min_ever_free_bytes = min s.min_ever_free_bytes s'.free_bytes := by
  unfold xf_malloc at h
  by_cases hz : (s.funcs.malloc s.alloc_st size).2 = 0
  · rw [if_pos hz] at h
    injection h with h1 h2
    exact absurd h2.symm hp
  · rw [if_neg hz] at h
    injection h with h1 h2
    subst h2
    subst h1
    exact ⟨rfl, rfl⟩

/-- Closed instance of `xf_malloc_accounting` at the demo allocator. -/
theorem xf_malloc_accounting_witness :
    (xf_malloc demoState 8).2 ≠ 0 ∧
    (xf_malloc demoState 8).1.free_bytes =
      demoState.free_bytes -
        xf_block_size_of (xf_malloc demoState 8).1 (xf_malloc demoState 8).2 ∧
    (xf_malloc demoState 8).1.min_ever_free_bytes =
      min demoState.min_ever_free_bytes (xf_malloc demoState 8).1.free_bytes :=
  ⟨by decide,
   xf_malloc_accounting demoState 8 (xf_malloc demoState 8).1
     (xf_malloc demoState 8).2 rfl (by decide)⟩

/-- C6: releasing the address returned by a successful `xf_malloc`
adds back exactly the `block_size_of`-reported charged size (queried
before the address is handed to the allocator's `free`), so
`free_bytes` returns to its pre-allocate value. -/
theorem xf_malloc_xf_free_roundtrip (s : xf_heap_state σ) (size : Nat)
    (s' : xf_heap_state σ) (p : Nat)
    (h : xf_malloc s size = (s', p)) (hp : p ≠ 0)
    (hle : xf_block_size_of s' p ≤ s.free_bytes) :
    (xf_free s' p).free_bytes = s'.free_bytes + xf_block_size_of s' p ∧
    (xf_free s' p).free_bytes = s.free_bytes := by
  unfold xf_malloc at h
  by_cases hz : (s.funcs.malloc s.alloc_st size).2 = 0
  · rw [if_pos hz] at h
    injection h with h1 h2
    exact absurd h2.symm hp
  · rw [if_neg hz] at h
    injection h with h1 h2
    subst h2
    subst h1
    unfold xf_free
    rw [if_neg hp]
    refine ⟨rfl, ?_⟩
    exact Nat.sub_add_cancel hle

/-- Closed instance of `xf_malloc_xf_free_roundtrip` at the demo
allocator. -/
theorem xf_malloc_xf_free_roundtrip_witness :
    (xf_free (xf_malloc demoState 8).1 (xf_malloc demoState 8).2).free_bytes =
      (xf_malloc demoState 8).1.free_bytes +
        xf_block_size_of (xf_malloc demoState 8).1 (xf_malloc demoState 8).2 ∧
    (xf_free (xf_malloc demoState 8).1 (xf_malloc demoState 8).2).free_bytes =
      demoState.free_bytes :=
  xf_malloc_xf_free_roundtrip demoState 8 (xf_malloc demoState 8).1
    (xf_malloc demoState 8).2 rfl (by decide) (by decide)

/-- C7: the surface operation `xf_block_size_of` reports, for the
address just returned by a successful `xf_malloc`, exactly the size
the facade charged against `free_bytes`; and the reported size may
exceed the requested size (rounding), as the demo allocator shows by
charging 16 bytes for an 8-byte request. -/
theorem xf_block_size_of_charged (s : xf_heap_state σ) (size : Nat)
    (s' : xf_heap_state σ) (p : Nat)
    (h : xf_malloc s size = (s', p)) (hp : p ≠ 0)
    (hle : xf_block_size_of s' p ≤ s.free_bytes) :
    s.free_bytes - s'.free_bytes = xf_block_size_of s' p ∧
    (∃ (t : xf_heap_state Nat) (t' : xf_heap_state Nat) (q : Nat),
      xf_malloc t 8 = (t', q) ∧ q ≠ 0 ∧ 8 < xf_block_size_of t' q) := by
  constructor
  · unfold xf_malloc at h
    by_cases hz : (s.funcs.malloc s.alloc_st size).2 = 0
    · rw [if_pos hz] at h
      injection h with h1 h2
      exact absurd h2.symm hp
    · rw [if_neg hz] at h
      injection h with h1 h2
      subst h2
      subst h1
      have hle2 : s.funcs.get_block_size (s.funcs.malloc s.alloc_st size).1
          (s.funcs.malloc s.alloc_st size).2 ≤ s.free_bytes := hle
      show s.free_bytes -
          (s.free_bytes - s.funcs.get_block_size (s.funcs.malloc s.alloc_st size).1
            (s.funcs.malloc s.alloc_st size).2) =
        s.funcs.get_block_size (s.funcs.malloc s.alloc_st size).1
          (s.funcs.malloc s.alloc_st size).2
      omega
  · exact ⟨demoState, (xf_malloc demoState 8).1, (xf_malloc demoState 8).2,
      rfl, by decide, by decide⟩

/-- Closed instance of `xf_block_size_of_charged` at the demo
allocator. -/
theorem xf_block_size_of_charged_witness :
    demoState.free_bytes - (xf_malloc demoState 8).1.free_bytes =
      xf_block_size_of (xf_malloc demoState 8).1 (xf_malloc demoState 8).2 ∧
    (∃ (t : xf_heap_state Nat) (t' : xf_heap_state Nat) (q : Nat),
      xf_malloc t 8 = (t', q) ∧ q ≠ 0 ∧ 8 < xf_block_size_of t' q) :=
  xf_block_size_of_charged demoState 8 (xf_malloc demoState 8).1
    (xf_malloc demoState 8).2 rfl (by decide) (by decide)

/-- C2: while uninitialized and with a region array that validates,
`xf_heap_init` sets `free_bytes` to the allocator's reported usable
total, sets `min_ever_free_bytes` to the same value, sets
`initialized := true` and returns `ok`; while already initialized it
fails with `already_initialized` and leaves the state unchanged. -/
theorem xf_heap_init_lifecycle (s : xf_heap_state σ)
    (regions : List xf_heap_region_t) :
    (s.initialized = true →
      xf_heap_init s regions = (.already_initialized, s)) ∧
    (s.initialized = false →
      ∀ rs, scanRegions XF_HEAP_REGIONS_MAX regions = some rs →
        rs.isEmpty = false → rs.all regionValid = true →
        anyOverlap rs = false → (s.funcs.init s.alloc_st rs).2 ≠ 0 →
        xf_heap_init s regions =
          (.ok, { s with alloc_st := (s.funcs.init s.alloc_st rs).1,
                         initialized := true,
                         free_bytes := (s.funcs.init s.alloc_st rs).2,
                         min_ever_free_bytes :=
                           (s.funcs.init s.alloc_st rs).2 })) := by
  constructor
  · intro hi
    unfold xf_heap_init
    rw [if_pos hi]
  · intro hi rs hscan hne hval hov hnz
    unfold xf_heap_init
    rw [if_neg (by simp [hi]), hscan]
    simp only [hne, hval, hov, Bool.not_true, Bool.false_eq_true, if_false]
    rw [if_neg hnz]

/-- Closed instance of `xf_heap_init_lifecycle`: a second `init` is
rejected, and a fresh `init` over two 1024-byte regions reports 2048
usable bytes and initializes the accounting. -/
theorem xf_heap_init_lifecycle_witness :
    xf_heap_init demoState demoRegions = (.already_initialized, demoState) ∧
    (xf_heap_init demoUninit demoRegions).1 = xf_heap_err_t.ok ∧
    (xf_heap_init demoUninit demoRegions).2.free_bytes = 2048 ∧
    (xf_heap_init demoUninit demoRegions).2.min_ever_free_bytes = 2048 ∧
    (xf_heap_init demoUninit demoRegions).2.initialized = true := by
  have h := (xf_heap_init_lifecycle demoUninit demoRegions).2 rfl
    [⟨4096, 1024⟩, ⟨8192, 1024⟩] (by decide) (by decide) (by decide)
    (by decide) (by decide)
  refine ⟨(xf_heap_init_lifecycle demoState demoRegions).1 rfl,
    ?_, ?_, ?_, ?_⟩ <;> rw [h] <;> rfl

/-- C3: `xf_heap_redirect` fails with `ordering_violation` when the
heap is initialized, fails with `incomplete_vector` when any of the
four handles is null, returns the state (hence the previously active
vector) unchanged on both failures, and can only return `ok` while
uninitialized. -/
theorem xf_heap_redirect_guards (s : xf_heap_state σ)
    (func : xf_alloc_func_t σ) :
    (s.initialized = true →
      xf_heap_redirect s func = (.ordering_violation, s)) ∧
    (s.initialized = false →
      (func.malloc = none ∨ func.free = none ∨ func.init = none ∨
        func.get_block_size = none) →
      xf_heap_redirect s func = (.incomplete_vector, s)) ∧
    ((xf_heap_redirect s func).1 = .ok → s.initialized = false) := by
  refine ⟨?_, ?_, ?_⟩
  · intro hi
    unfold xf_heap_redirect
    rw [if_pos hi]
  · intro hi hnull
    unfold xf_heap_redirect
    rw [if_neg (by simp [hi])]
    obtain ⟨m, f, i, g⟩ := func
    cases m <;> cases f <;> cases i <;> cases g <;> simp_all
  · intro hok
    by_cases hb : s.initialized = true
    · unfold xf_heap_redirect at hok
      rw [if_pos hb] at hok
      simp at hok
    · exact Bool.not_eq_true _ ▸ (by simpa using hb)

/-- Closed instance of `xf_heap_redirect_guards`: redirecting an
initialized heap and redirecting with a null `malloc` handle. -/
theorem xf_heap_redirect_guards_witness :
    xf_heap_redirect demoState demoVec = (.ordering_violation, demoState) ∧
    xf_heap_redirect demoUninit incompleteVec =
      (.incomplete_vector, demoUninit) :=
  ⟨(xf_heap_redirect_guards demoState demoVec).1 rfl,
   (xf_heap_redirect_guards demoUninit incompleteVec).2.1 rfl (Or.inl rfl)⟩

/-- C8: while initialized, the two size queries return `free_bytes`
and `min_ever_free_bytes`; while uninitialized, both return 0. -/
theorem xf_heap_size_queries (s : xf_heap_state σ) :
    (s.initialized = true →
      xf_heap_get_free_size s = s.free_bytes ∧
      xf_heap_get_min_ever_free_size s = s.min_ever_free_bytes) ∧
    (s.initialized = false →
      xf_heap_get_free_size s = 0 ∧
      xf_heap_get_min_ever_free_size s = 0) := by
  constructor
  · intro h
    unfold xf_heap_get_free_size xf_heap_get_min_ever_free_size
    rw [if_pos h, if_pos h]
    exact ⟨rfl, rfl⟩
  · intro h
    unfold xf_heap_get_free_size xf_heap_get_min_ever_free_size
    rw [if_neg (by simp [h]), if_neg (by simp [h])]
    exact ⟨rfl, rfl⟩

/-- Closed instance of `xf_heap_size_queries`: an initialized state,
and the state right after `xf_heap_uninit`. -/
theorem xf_heap_size_queries_witness :
    (xf_heap_get_free_size demoState = demoState.free_bytes ∧
      xf_heap_get_min_ever_free_size demoState =
        demoState.min_ever_free_bytes) ∧
    (xf_heap_get_free_size (xf_heap_uninit demoPost).2 = 0 ∧
      xf_heap_get_min_ever_free_size (xf_heap_uninit demoPost).2 = 0) :=
  ⟨(xf_heap_size_queries demoState).1 rfl,
   (xf_heap_size_queries (xf_heap_uninit demoPost).2).2 rfl⟩

/-- C10: `xf_heap_init` only reads the caller's region array (it is
received through a pointer to const): after the world step runs
`xf_heap_init`, every descriptor of the caller's array — each
`stat_address` and `size_in_bytes` field — is exactly as before,
whether the call succeeds or fails. -/
theorem xf_heap_init_world_frame (w : xf_heap_world σ) :
    (xf_heap_init_world w).2.caller_regions = w.caller_regions := rfl

/-- When no sentinel occurs among the first `fuel` entries of the
array, the bounded sentinel scan fails. -/
theorem scanRegions_none_of_no_sentinel (fuel : Nat)
    (l : List xf_heap_region_t)
    (h : ∀ r ∈ l.take fuel, isSentinel r = false) :
    scanRegions fuel l = none := by
  induction fuel generalizing l with
  | zero => cases l <;> rfl
  | succ n ih =>
    cases l with
    | nil => rfl
    | cons r rs =>
      have hr : isSentinel r = false := by
        refine h r ?_
        rw [List.take_succ_cons]
        exact List.mem_cons_self r _
      have hrest : ∀ x ∈ rs.take n, isSentinel x = false := by
        intro x hx
        refine h x ?_
        rw [List.take_succ_cons]
        exact List.mem_cons_of_mem r hx
      unfold scanRegions
      rw [hr]
      simp [ih rs hrest]

/-- C4: `xf_heap_init` on an uninitialized heap rejects a region
array whose sentinel is not reached within the implementation-defined
maximum with `malformed_region_array`; rejects a usable entry with a
null start, a zero size, or a range wrapping the address space with
`malformed_region_array`; rejects two intersecting regions with
`region_overlap`; rejects an array whose first entry is the sentinel
with `no_regions`; and on each such failure returns the state, still
uninitialized, unchanged. -/
theorem xf_heap_init_region_validation (s : xf_heap_state σ)
    (regions : List xf_heap_region_t) (h : s.initialized = false) :
    ((∀ r ∈ regions.take XF_HEAP_REGIONS_MAX, isSentinel r = false) →
      xf_heap_init s regions = (.malformed_region_array, s)) ∧
    (∀ rs, scanRegions XF_HEAP_REGIONS_MAX regions = some rs →
      (∃ r, r ∈ rs ∧ (r.stat_address = 0 ∨ r.size_in_bytes = 0 ∨
        ADDR_SPACE ≤ r.stat_address + r.size_in_bytes)) →
      xf_heap_init s regions = (.malformed_region_array, s)) ∧
    (∀ rs, scanRegions XF_HEAP_REGIONS_MAX regions = some rs →
      rs.all regionValid = true → anyOverlap rs = true →
      xf_heap_init s regions = (.region_overlap, s)) ∧
    (∀ r rest, regions = r :: rest → isSentinel r = true →
      xf_heap_init s regions = (.no_regions, s)) := by
  refine ⟨?_, ?_, ?_, ?_⟩
  · intro hns
    have hsc := scanRegions_none_of_no_sentinel XF_HEAP_REGIONS_MAX regions hns
    unfold xf_heap_init
    rw [if_neg (by simp [h]), hsc]
  · intro rs hscan hbad
    have hne : rs.isEmpty = false := by
      cases rs with
      | nil =>
        obtain ⟨r, hmem, -⟩ := hbad
        cases hmem
      | cons a as => rfl
    have hall : rs.all regionValid = false := by
      rw [List.all_eq_false]
      obtain ⟨r, hmem, hb⟩ := hbad
      refine ⟨r, hmem, ?_⟩
      intro hv
      unfold regionValid at hv
      simp only [Bool.and_eq_true, bne_iff_ne, ne_eq, decide_eq_true_eq] at hv
      rcases hb with h0 | h0 | h0
      · exact hv.1.1 h0
      · exact hv.1.2 h0
      · have := hv.2
        omega
    unfold xf_heap_init
    rw [if_neg (by simp [h]), hscan]
    simp [hne, hall]
  · intro rs hscan hval hov
    have hne : rs.isEmpty = false := by
      cases rs with
      | nil => simp [anyOverlap] at hov
      | cons a as => rfl
    unfold xf_heap_init
    rw [if_neg (by simp [h]), hscan]
    simp [hne, hval, hov]
  · intro r rest hreg hsent
    subst hreg
    have hscan : scanRegions XF_HEAP_REGIONS_MAX (r :: rest) = some [] := by
      show scanRegions (15 + 1) (r :: rest) = some []
      unfold scanRegions
      rw [hsent]
      rfl
    unfold xf_heap_init
    rw [if_neg (by simp [h]), hscan]
    rfl

/-- Closed instance of `xf_heap_init_region_validation`: a
sentinel-less array, a null-start entry, two intersecting regions, and
an array whose first entry is the sentinel. -/
theorem xf_heap_init_region_validation_witness :
    xf_heap_init demoUninit (List.replicate 20 ⟨1, 1⟩) =
      (.malformed_region_array, demoUninit) ∧
    xf_heap_init demoUninit [⟨0, 5⟩, ⟨0, 0⟩] =
      (.malformed_region_array, demoUninit) ∧
    xf_heap_init demoUninit [⟨100, 50⟩, ⟨120, 50⟩, ⟨0, 0⟩] =
      (.region_overlap, demoUninit) ∧
    xf_heap_init demoUninit [⟨0, 0⟩] = (.no_regions, demoUninit) :=
  ⟨(xf_heap_init_region_validation demoUninit _ rfl).1 (by decide),
   (xf_heap_init_region_validation demoUninit _ rfl).2.1 [⟨0, 5⟩]
     (by decide) ⟨⟨0, 5⟩, by decide, Or.inl rfl⟩,
   (xf_heap_init_region_validation demoUninit _ rfl).2.2.1
     [⟨100, 50⟩, ⟨120, 50⟩] (by decide) (by decide) (by decide),
   (xf_heap_init_region_validation demoUninit _ rfl).2.2.2 ⟨0, 0⟩ [] rfl rfl⟩

/-- No facade operation of a steady-state trace raises the low-water
mark. -/
theorem stepOp_min_ever_le (s : xf_heap_state σ) (o : HeapOp σ) :
    (stepOp s o).min_ever_free_bytes ≤ s.min_ever_free_bytes := by
  cases o with
  | malloc size =>
    show (xf_malloc s size).1.min_ever_free_bytes ≤ s.min_ever_free_bytes
    unfold xf_malloc
    by_cases hz : (s.funcs.malloc s.alloc_st size).2 = 0
    · rw [if_pos hz]
    · rw [if_neg hz]
      exact Nat.min_le_left _ _
  | free pv =>
    show (xf_free s pv).min_ever_free_bytes ≤ s.min_ever_free_bytes
    unfold xf_free
    by_cases hz : pv = 0
    · rw [if_pos hz]
    · rw [if_neg hz]
  | redirect func =>
    show (xf_heap_redirect s func).2.min_ever_free_bytes ≤
      s.min_ever_free_bytes
    unfold xf_heap_redirect
    by_cases hi : s.initialized = true
    · rw [if_pos hi]
    · rw [if_neg hi]
      obtain ⟨m, f, i, g⟩ := func
      cases m <;> cases f <;> cases i <;> cases g <;> exact Nat.le_refl _
  | getFree => exact Nat.le_refl _
  | getMinEver => exact Nat.le_refl _

/-- Every facade operation of a steady-state trace preserves the
invariant that the low-water mark is at most `free_bytes`. -/
theorem stepOp_min_le_free (s : xf_heap_state σ) (o : HeapOp σ)
    (h : s.min_ever_free_bytes ≤ s.free_bytes) :
    (stepOp s o).min_ever_free_bytes ≤ (stepOp s o).free_bytes := by
  cases o with
  | malloc size =>
    show (xf_malloc s size).1.min_ever_free_bytes ≤
      (xf_malloc s size).1.free_bytes
    unfold xf_malloc
    by_cases hz : (s.funcs.malloc s.alloc_st size).2 = 0
    · rw [if_pos hz]
      exact h
    · rw [if_neg hz]
      exact Nat.min_le_right _ _
  | free pv =>
    show (xf_free s pv).min_ever_free_bytes ≤ (xf_free s pv).free_bytes
    unfold xf_free
    by_cases hz : pv = 0
    · rw [if_pos hz]
      exact h
    · rw [if_neg hz]
      exact Nat.le_trans h (Nat.le_add_right _ _)
  | redirect func =>
    show (xf_heap_redirect s func).2.min_ever_free_bytes ≤
      (xf_heap_redirect s func).2.free_bytes
    unfold xf_heap_redirect
    by_cases hi : s.initialized = true
    · rw [if_pos hi]
      exact h
    · rw [if_neg hi]
      obtain ⟨m, f, i, g⟩ := func
      cases m <;> cases f <;> cases i <;> cases g <;> exact h
  | getFree => exact h
  | getMinEver => exact h

/-- Across a steady-state trace the low-water mark never rises. -/
theorem runOps_min_ever_le (s : xf_heap_state σ) (l : List (HeapOp σ)) :
    (runOps s l).min_ever_free_bytes ≤ s.min_ever_free_bytes := by
  induction l generalizing s with
  | nil => exact Nat.le_refl _
  | cons o os ih =>
    exact Nat.le_trans (ih (stepOp s o)) (stepOp_min_ever_le s o)

/-- Across a steady-state trace the low-water mark stays at most
`free_bytes` once it starts that way. -/
theorem runOps_min_le_free (s : xf_heap_state σ) (l : List (HeapOp σ))
    (h : s.min_ever_free_bytes ≤ s.free_bytes) :
    (runOps s l).min_ever_free_bytes ≤ (runOps s l).free_bytes := by
  induction l generalizing s with
  | nil => exact h
  | cons o os ih => exact ih (stepOp s o) (stepOp_min_le_free s o h)

/-- Running a concatenated trace runs the two parts in order. -/
theorem runOps_append (s : xf_heap_state σ) (l1 l2 : List (HeapOp σ)) :
    runOps s (l1 ++ l2) = runOps (runOps s l1) l2 := by
  induction l1 generalizing s with
  | nil => rfl
  | cons o os ih => exact ih (stepOp s o)

/-- A successful `xf_heap_init` starts the low-water mark at the
free-byte total. -/
theorem xf_heap_init_ok_min_eq_free (s : xf_heap_state σ)
    (regions : List xf_heap_region_t) (s' : xf_heap_state σ)
    (h : xf_heap_init s regions = (.ok, s')) :
    s'.min_ever_free_bytes = s'.free_bytes := by
  unfold xf_heap_init at h
  split at h
  · simp at h
  · split at h
    · simp at h
    · split at h
      · simp at h
      · split at h
        · simp at h
        · split at h
          · simp at h
          · split at h
            · simp at h
            · injection h with h1 h2
              subst h2
              rfl

/-- C5: from any state produced by a successful `xf_heap_init`, along
every trace of facade operations containing no `init` and no `uninit`,
the low-water mark stays at most `free_bytes`, and it never exceeds
its value at any earlier point of the trace (in particular releases
never raise it). -/
theorem xf_heap_min_ever_invariant (s0 : xf_heap_state σ)
    (regions : List xf_heap_region_t) (s : xf_heap_state σ)
    (hinit : xf_heap_init s0 regions = (.ok, s))
    (l1 l2 : List (HeapOp σ)) :
    (runOps s (l1 ++ l2)).min_ever_free_bytes ≤
      (runOps s (l1 ++ l2)).free_bytes ∧
    (runOps s (l1 ++ l2)).min_ever_free_bytes ≤
      (runOps s l1).min_ever_free_bytes := by
  have hmf := xf_heap_init_ok_min_eq_free s0 regions s hinit
  constructor
  · exact runOps_min_le_free s (l1 ++ l2) (Nat.le_of_eq hmf)
  · rw [runOps_append]
    exact runOps_min_ever_le (runOps s l1) l2

/-- Closed instance of `xf_heap_min_ever_invariant`: after a real
`init`, an allocation followed by its release keeps the mark at most
the free bytes, and the release does not raise the mark. -/
theorem xf_heap_min_ever_invariant_witness :
    (runOps demoPost ([HeapOp.malloc 8] ++ [HeapOp.free 1000])).min_ever_free_bytes ≤
      (runOps demoPost ([HeapOp.malloc 8] ++ [HeapOp.free 1000])).free_bytes ∧
    (runOps demoPost ([HeapOp.malloc 8] ++ [HeapOp.free 1000])).min_ever_free_bytes ≤
      (runOps demoPost [HeapOp.malloc 8]).min_ever_free_bytes :=
  xf_heap_min_ever_invariant demoUninit demoRegions demoPost rfl
    [HeapOp.malloc 8] [HeapOp.free 1000]
